import Mathlib

/-!
Shallow embedding of the algezip boolean-expression editor core
(`src/algezip/data.py`, `src/algezip/actions.py`, `src/algezip/source.py`).

Python exceptions (`NavigationError`, `ActionError`, `ParseError`) are modelled
as `Except String`, carrying the same message text the Python code builds.
Python lists used as stacks (append/pop at the right end) are modelled as Lean
lists with the stack top at the head. `ConsList` from `data.py` is Lean `List`.
-/

namespace Algezip

/-- `BinaryOp = Literal['&', '|']` from `data.py`. -/
inductive BinaryOp where
  | and
  | or
deriving DecidableEq

/-- `Expr = Boolean | Variable | tuple[UnaryOp, Expr] | tuple[Expr, BinaryOp, Expr]`
from `data.py`. `unary` is the `('!', expr)` tuple (the only unary operator is `!`). -/
inductive Expr where
  | F
  | T
  | var (name : String)
  | unary (arg : Expr)
  | binary (left : Expr) (op : BinaryOp) (right : Expr)
deriving DecidableEq

/-- `Parent = tuple[UnaryOp, Hole] | tuple[Hole, BinaryOp, Expr] | tuple[Expr, BinaryOp, Hole]`
from `data.py`. -/
inductive Parent where
  | unaryHole
  | binaryHoleLeft (op : BinaryOp) (right : Expr)
  | binaryHoleRight (left : Expr) (op : BinaryOp)
deriving DecidableEq

/-- `Direction` enum from `data.py`. -/
inductive Direction where
  | arg
  | left
  | right
deriving DecidableEq

/-- `Zipper` dataclass from `data.py`: a focused subexpression and its ancestor
frames, innermost first. -/
structure Zipper where
  expr : Expr
  parents : List Parent
deriving DecidableEq

/-- `Zipper._move_up_with_direction` from `data.py`. -/
def Zipper.moveUpWithDirection (z : Zipper) : Except String (Zipper × Direction) :=
  match z.parents with
  | [] => .error "cannot move to parent -- already at the top"
  | parent :: grandparents =>
    match parent with
    | .unaryHole => .ok (⟨.unary z.expr, grandparents⟩, .arg)
    | .binaryHoleLeft op right => .ok (⟨.binary z.expr op right, grandparents⟩, .left)
    | .binaryHoleRight left op => .ok (⟨.binary left op z.expr, grandparents⟩, .right)

/-- `Zipper.move_up` from `data.py`. -/
def Zipper.moveUp (z : Zipper) : Except String Zipper :=
  z.moveUpWithDirection.map Prod.fst

/-- The `while` loop of `Zipper.to_top` from `data.py`, as structural recursion on
the ancestor list: each step wraps the expression by the innermost frame and
prepends the direction back down, so the final list is ordered outermost-first. -/
def toTopAux : Expr → List Parent → List Direction → Expr × List Direction
  | e, [], acc => (e, acc)
  | e, .unaryHole :: gps, acc => toTopAux (.unary e) gps (.arg :: acc)
  | e, .binaryHoleLeft op right :: gps, acc => toTopAux (.binary e op right) gps (.left :: acc)
  | e, .binaryHoleRight left op :: gps, acc => toTopAux (.binary left op e) gps (.right :: acc)

/-- `Zipper.to_top` from `data.py`: never fails, returns the top-level expression
and the directions from the top back to the focus. -/
def Zipper.toTop (z : Zipper) : Expr × List Direction :=
  toTopAux z.expr z.parents []

/-- `Zipper.move_arg` from `data.py`. -/
def Zipper.moveArg (z : Zipper) : Except String Zipper :=
  match z.expr with
  | .unary arg => .ok ⟨arg, .unaryHole :: z.parents⟩
  | _ => .error "cannot move to only argument -- not at a unary operation"

/-- `Zipper.move_left` from `data.py`. -/
def Zipper.moveLeft (z : Zipper) : Except String Zipper :=
  match z.expr with
  | .binary left op right => .ok ⟨left, .binaryHoleLeft op right :: z.parents⟩
  | _ => .error "cannot move to left argument -- not at a binary operation"

/-- `Zipper.move_right` from `data.py`. -/
def Zipper.moveRight (z : Zipper) : Except String Zipper :=
  match z.expr with
  | .binary left op right => .ok ⟨right, .binaryHoleRight left op :: z.parents⟩
  | _ => .error "cannot move to right argument -- not at a binary operation"

/-- `Zipper.transform` from `data.py`. -/
def Zipper.transform (z : Zipper) (action : Expr → Expr) : Zipper :=
  ⟨action z.expr, z.parents⟩

/-- The `_duals` dictionary from `actions.py`. -/
def duals : BinaryOp → BinaryOp
  | .and => .or
  | .or => .and

/-- The message built by `ActionError.__init__` in `actions.py`. -/
def actionErrorMsg (actionDescription : String) (validTransformations : List String) : String :=
  "cannot " ++ actionDescription ++ " -- valid transformations are:\n" ++
    String.intercalate "\n" validTransformations

/-- `apply_commutativity` from `actions.py`. -/
def apply_commutativity (e : Expr) : Except String Expr :=
  match e with
  | .binary a op b => .ok (.binary b op a)
  | _ => .error (actionErrorMsg "apply commutativity" ["(a | b) -> (b | a)", "(a & b) -> (b & a)"])

/-- `apply_identity` from `actions.py`. -/
def apply_identity (e : Expr) : Except String Expr :=
  match e with
  | .binary a .or .F => .ok a
  | .binary a .and .T => .ok a
  | _ => .error (actionErrorMsg "apply identity" ["(a | F) -> a", "(a & T) -> a"])

/-- `introduce_or_false` from `actions.py`: total, no error channel, mirroring the
Python function body which contains no `raise`. -/
def introduce_or_false (e : Expr) : Expr :=
  .binary e .or .F

/-- `introduce_and_true` from `actions.py`: total, no error channel, mirroring the
Python function body which contains no `raise`. -/
def introduce_and_true (e : Expr) : Expr :=
  .binary e .and .T

/-- `distribute` from `actions.py`. -/
def distribute (e : Expr) : Except String Expr :=
  match e with
  | .binary a op0 (.binary b op1 c) =>
    if duals op0 = op1 then
      .ok (.binary (.binary a op0 b) op1 (.binary a op0 c))
    else
      .error (actionErrorMsg "distribute"
        ["(a | [b & c]) -> ([a | b] & [a | c])", "(a & [b | c]) -> ([a & b] | [a & c])"])
  | _ =>
    .error (actionErrorMsg "distribute"
      ["(a | [b & c]) -> ([a | b] & [a | c])", "(a & [b | c]) -> ([a & b] | [a & c])"])

/-- `factor` from `actions.py`. -/
def factor (e : Expr) : Except String Expr :=
  match e with
  | .binary (.binary a op0 b) op1 (.binary a2 op02 c) =>
    if a = a2 ∧ op0 = op02 ∧ duals op0 = op1 then
      .ok (.binary a op0 (.binary b op1 c))
    else
      .error (actionErrorMsg "factor"
        ["([a | b] & [a | c]) -> (a | [b & c])", "([a & b] | [a & c]) -> (a & [b | c])"])
  | _ =>
    .error (actionErrorMsg "factor"
      ["([a | b] & [a | c]) -> (a | [b & c])", "([a & b] | [a & c]) -> (a & [b | c])"])

/-- `apply_complements` from `actions.py`. -/
def apply_complements (e : Expr) : Except String Expr :=
  match e with
  | .binary a .or (.unary a2) =>
    if a = a2 then .ok .T
    else .error (actionErrorMsg "apply complements" ["(a | [!a]) -> T", "(a & [!a]) -> F"])
  | .binary a .and (.unary a2) =>
    if a = a2 then .ok .F
    else .error (actionErrorMsg "apply complements" ["(a | [!a]) -> T", "(a & [!a]) -> F"])
  | _ => .error (actionErrorMsg "apply complements" ["(a | [!a]) -> T", "(a & [!a]) -> F"])

/-- `expand_into_complements` from `actions.py`. -/
def expand_into_complements (e : Expr) (a : Expr) : Except String Expr :=
  match e with
  | .T => .ok (.binary a .or (.unary a))
  | .F => .ok (.binary a .and (.unary a))
  | _ => .error (actionErrorMsg "expand into complements" ["T -> (a | [!a])", "F -> (a & [!a])"])

/-- `Token` from `source.py`: `Boolean | Variable | UnaryOp | BinaryOp | Literal['(', ')']`. -/
inductive Token where
  | tF
  | tT
  | tVar (name : String)
  | tNot
  | tAnd
  | tOr
  | tOpen
  | tClose
deriving DecidableEq

/-- `_opening_brackets` from `source.py`. -/
def opening_brackets : List Char := ['(', '[', '{']

/-- `_closing_brackets` from `source.py`. -/
def closing_brackets : List Char := [')', ']', '}']

/-- `_bracket_pairs` from `source.py`. -/
def bracket_pairs : List (Char × Char) := [('(', ')'), ('[', ']'), ('{', '}')]

/-- The `f'{char!r}'` formatting from `source.py` error messages: Python `repr` of a
one-character string, for characters containing no quote or backslash. -/
def reprChar (c : Char) : String :=
  "'" ++ String.singleton c ++ "'"

/-- The simple-token branch of `tokenize` in `source.py` (`_is_simple_token` plus the
no-op character-to-token conversion): `F`, `T`, `!`, `&`, `|` map to their tokens. -/
def charToken (c : Char) : Option Token :=
  if c = 'F' then some .tF
  else if c = 'T' then some .tT
  else if c = '!' then some .tNot
  else if c = '&' then some .tAnd
  else if c = '|' then some .tOr
  else none

/-- Models Python's `str.islower()` on a single character, restricted to the character
ranges this development exercises: ASCII lowercase `a`..`z` plus the Greek lowercase
block U+03B1..U+03C9. Python's `islower` is Unicode-aware, so non-ASCII lowercase
letters such as `'α'` satisfy it; none of these characters collide with the simple
tokens, brackets, or whitespace handled by the other branches of `tokenize`. -/
def pyIsLower (c : Char) : Bool :=
  (97 ≤ c.toNat && c.toNat ≤ 122) || (0x3B1 ≤ c.toNat && c.toNat ≤ 0x3C9)

/-- The character-scanning `for` loop of `tokenize` in `source.py`, with the token
stream accumulated in order and the `unclosed_opening_brackets` stack kept with its
top at the head (Python pushes and pops at the right end of a list). -/
def scan : List Char → List Token → List Char → Except String (List Token × List Char)
  | [], stream, unclosed => .ok (stream, unclosed)
  | c :: rest, stream, unclosed =>
    match charToken c with
    | some tok => scan rest (stream ++ [tok]) unclosed
    | none =>
      if pyIsLower c then
        scan rest (stream ++ [.tVar (String.singleton c)]) unclosed
      else if c ∈ opening_brackets then
        scan rest (stream ++ [.tOpen]) (c :: unclosed)
      else if c ∈ closing_brackets then
        match unclosed with
        | [] => .error ("unmatched bracket -- " ++ reprChar c)
        | opening :: unclosedRest =>
          if (opening, c) ∈ bracket_pairs then
            scan rest (stream ++ [.tClose]) unclosedRest
          else
            .error ("bad bracket match -- " ++ reprChar opening ++ " with " ++ reprChar c)
      else if c.isWhitespace then
        scan rest stream unclosed
      else
        .error ("unrecognized character in boolean expression -- " ++ reprChar c)

/-- `tokenize` from `source.py`: scan all characters, then fail if any opening bracket
remains unclosed, citing the bracket popped from the stack (its top, i.e. the most
recently opened unclosed bracket). -/
def tokenize (exprString : String) : Except String (List Token) :=
  match scan exprString.data [] [] with
  | .error e => .error e
  | .ok (stream, unclosed) =>
    match unclosed with
    | [] => .ok stream
    | opening :: _ => .error ("unmatched bracket -- " ++ reprChar opening)

/-- `_StackElement` from `source.py`: `UnaryOp | BinaryOp | _StackExpr`. -/
inductive StackElement where
  | unaryOp
  | binOp (op : BinaryOp)
  | stackExpr (e : Expr)
deriving DecidableEq

/-- The token loop and final checks of `parse` from `source.py`. The parse stack grows
at the right end as in Python (`stack.append`, `stack[boundary:]`, `del stack[boundary:]`);
the boundary-index stack keeps its top at the head. The impossible paths guarded by the
precondition (popping a boundary that does not exist, leftover boundaries at the end)
are modelled as errors mirroring Python's `IndexError` and failed `assert`. -/
def parseLoop : List Token → List StackElement → List Nat → Except String Expr
  | [], stack, boundaries =>
    match boundaries with
    | _ :: _ => .error "assertion failed -- brackets should be balanced"
    | [] =>
      match stack with
      | [.stackExpr e] => .ok e
      | _ => .error "invalid syntax in boolean expression"
  | token :: rest, stack, boundaries =>
    match token with
    | .tF => parseLoop rest (stack ++ [.stackExpr .F]) boundaries
    | .tT => parseLoop rest (stack ++ [.stackExpr .T]) boundaries
    | .tVar name => parseLoop rest (stack ++ [.stackExpr (.var name)]) boundaries
    | .tNot => parseLoop rest (stack ++ [.unaryOp]) boundaries
    | .tAnd => parseLoop rest (stack ++ [.binOp .and]) boundaries
    | .tOr => parseLoop rest (stack ++ [.binOp .or]) boundaries
    | .tOpen => parseLoop rest stack (stack.length :: boundaries)
    | .tClose =>
      match boundaries with
      | [] => .error "IndexError -- pop from empty list"
      | boundary :: boundariesRest =>
        match stack.drop boundary with
        | [.unaryOp, .stackExpr arg] =>
          parseLoop rest (stack.take boundary ++ [.stackExpr (.unary arg)]) boundariesRest
        | [.stackExpr left, .binOp op, .stackExpr right] =>
          parseLoop rest (stack.take boundary ++ [.stackExpr (.binary left op right)]) boundariesRest
        | _ => .error "invalid syntax in boolean expression"

/-- `parse` from `source.py`. -/
def parse (stream : List Token) : Except String Expr :=
  parseLoop stream [] []

/-- `FocusToken` dataclass from `source.py`. -/
structure FocusToken where
  token : Token
  underFocus : Bool
deriving DecidableEq

/-- `_FocusPath` from `source.py`: `ConsList[Direction] | Literal['unfocused']`. -/
inductive FocusPath where
  | path (directions : List Direction)
  | unfocused
deriving DecidableEq

/-- `_move_along_path` from `source.py`. -/
def move_along_path (focusPath : FocusPath) (direction : Direction) : FocusPath :=
  match focusPath with
  | .path (nextDirection :: restOfPath) =>
    if nextDirection = direction then .path restOfPath else .unfocused
  | .path [] => .path []
  | .unfocused => .unfocused

/-- The token for a binary operator, as emitted by `_unparse_with_focus_path`. -/
def binaryOpToken : BinaryOp → Token
  | .and => .tAnd
  | .or => .tOr

/-- `_unparse_with_focus_path` from `source.py`: a node is under focus exactly when
the focus path is the empty direction list (`focus_path is None` in Python). -/
def unparse_with_focus_path (e : Expr) (focusPath : FocusPath) : List FocusToken :=
  let uf : Bool := focusPath = FocusPath.path []
  match e with
  | .F => [⟨.tF, uf⟩]
  | .T => [⟨.tT, uf⟩]
  | .var name => [⟨.tVar name, uf⟩]
  | .unary arg =>
    [⟨.tOpen, uf⟩, ⟨.tNot, uf⟩] ++
      unparse_with_focus_path arg (move_along_path focusPath .arg) ++ [⟨.tClose, uf⟩]
  | .binary left op right =>
    [⟨.tOpen, uf⟩] ++ unparse_with_focus_path left (move_along_path focusPath .left) ++
      [⟨binaryOpToken op, uf⟩] ++ unparse_with_focus_path right (move_along_path focusPath .right) ++
      [⟨.tClose, uf⟩]

/-- `unparse` from `source.py`. -/
def unparse (zipper : Zipper) : List FocusToken :=
  let (topLevelExpr, focusPath) := zipper.toTop
  unparse_with_focus_path topLevelExpr (.path focusPath)

/-- One iteration of the token match in `untokenize` from `source.py`: the rendered
text of a token and the updated bracket depth. Python's list indexing
`_opening_brackets[bracket_depth % 3]` can in principle raise `IndexError`, so it is
modelled with `List.get?`; Python's `%` on a possibly negative depth agrees with
`Int.emod` for the positive modulus 3. For a `Close` token the depth is decreased
before indexing, as in the source. -/
def render_token : Token → Int → Option (String × Int)
  | .tF, depth => some ("F", depth)
  | .tT, depth => some ("T", depth)
  | .tNot, depth => some ("!", depth)
  | .tVar name, depth => some (name, depth)
  | .tAnd, depth => some (" & ", depth)
  | .tOr, depth => some (" | ", depth)
  | .tOpen, depth =>
    (opening_brackets.get? (depth % 3).toNat).map fun c => (String.singleton c, depth + 1)
  | .tClose, depth =>
    (closing_brackets.get? ((depth - 1) % 3).toNat).map fun c => (String.singleton c, depth - 1)

/-- The token loop of `untokenize` from `source.py`, carrying the bracket depth; for
each token it appends the rendered text to the expression string and a same-length run
of `^` or spaces to the focus string. -/
def untokenizeAux : List FocusToken → Int → Option (String × String)
  | [], _ => some ("", "")
  | focusToken :: rest, bracketDepth =>
    match render_token focusToken.token bracketDepth with
    | none => none
    | some (tokenString, newDepth) =>
      match untokenizeAux rest newDepth with
      | none => none
      | some (exprString, focusString) =>
        let tokenFocusChar : Char := if focusToken.underFocus then '^' else ' '
        some (tokenString ++ exprString,
          String.mk (List.replicate tokenString.length tokenFocusChar) ++ focusString)

/-- `untokenize` from `source.py`, starting from bracket depth 0. -/
def untokenize (stream : List FocusToken) : Option (String × String) :=
  untokenizeAux stream 0

/-- The zipper over `BinOp(And, BinOp(Or, a, b), Not(BinOp(And, a, b)))` with an empty
ancestor list, i.e. `((A, '|', B), '&', ('!', (A, '&', B)))` from the test data. -/
def exampleZipper : Zipper :=
  ⟨.binary (.binary (.var "a") .or (.var "b")) .and
    (.unary (.binary (.var "a") .and (.var "b"))), []⟩

/-!
Proof-support definitions: reconstruction of a parent frame around a child
expression, the direction recorded for a frame, and replaying a direction path
from the top of an expression via the matching zipper moves.
-/

/-- Wrapping a focus into a parent frame, as done by `Zipper._move_up_with_direction`. -/
def applyParent : Parent → Expr → Expr
  | .unaryHole, e => .unary e
  | .binaryHoleLeft op right, e => .binary e op right
  | .binaryHoleRight left op, e => .binary left op e

/-- The direction recorded by `Zipper._move_up_with_direction` for each parent frame. -/
def dirOf : Parent → Direction
  | .unaryHole => .arg
  | .binaryHoleLeft _ _ => .left
  | .binaryHoleRight _ _ => .right

/-- The zipper move matching one direction: `move_arg` for ARG, `move_left` for LEFT,
`move_right` for RIGHT. -/
def step (d : Direction) (z : Zipper) : Except String Zipper :=
  match d with
  | .arg => z.moveArg
  | .left => z.moveLeft
  | .right => z.moveRight

/-- Replaying a direction path (outermost-first) by performing the matching moves. -/
def replay : Zipper → List Direction → Except String Zipper
  | z, [] => .ok z
  | z, d :: rest =>
    match step d z with
    | .ok next => replay next rest
    | .error e => .error e

lemma replay_append (z : Zipper) (ds ds2 : List Direction) :
    replay z (ds ++ ds2) =
      match replay z ds with
      | .ok z2 => replay z2 ds2
      | .error e => .error e := by
  induction ds generalizing z with
  | nil => simp [replay]
  | cons d rest ih =>
    simp only [List.cons_append, replay]
    cases h : step d z with
    | ok next => simp [ih]
    | error e => simp

lemma toTopAux_eq (ps : List Parent) (e : Expr) (acc : List Direction) :
    toTopAux e ps acc =
      (ps.foldl (fun x p => applyParent p x) e, (ps.map dirOf).reverse ++ acc) := by
  induction ps generalizing e acc with
  | nil => simp [toTopAux]
  | cons p rest ih =>
    cases p <;> simp [toTopAux, applyParent, dirOf, ih]

lemma replay_foldl (ps : List Parent) (e : Expr) :
    replay ⟨ps.foldl (fun x p => applyParent p x) e, []⟩ ((ps.map dirOf).reverse) =
      .ok ⟨e, ps⟩ := by
  induction ps generalizing e with
  | nil => simp [replay]
  | cons p rest ih =>
    simp only [List.map_cons, List.reverse_cons, List.foldl_cons]
    rw [replay_append, ih (applyParent p e)]
    cases p <;>
      simp [replay, step, applyParent, dirOf, Zipper.moveArg, Zipper.moveLeft, Zipper.moveRight]

lemma mod3_toNat_lt (d : Int) : (d % 3).toNat < 3 := by
  have h1 : 0 ≤ d % 3 := Int.emod_nonneg d (by decide)
  have h2 : d % 3 < 3 := Int.emod_lt_of_pos d (by decide)
  omega

lemma render_token_isSome (t : Token) (d : Int) : ∃ r, render_token t d = some r := by
  cases t <;> simp only [render_token]
  case tF => exact ⟨_, rfl⟩
  case tT => exact ⟨_, rfl⟩
  case tVar name => exact ⟨_, rfl⟩
  case tNot => exact ⟨_, rfl⟩
  case tAnd => exact ⟨_, rfl⟩
  case tOr => exact ⟨_, rfl⟩
  case tOpen =>
    have hn : (d % 3).toNat < 3 := mod3_toNat_lt d
    set n := (d % 3).toNat with hdef
    interval_cases n <;> exact ⟨_, rfl⟩
  case tClose =>
    have hn : ((d - 1) % 3).toNat < 3 := mod3_toNat_lt (d - 1)
    set n := ((d - 1) % 3).toNat with hdef
    interval_cases n <;> exact ⟨_, rfl⟩

lemma untokenizeAux_isSome (stream : List FocusToken) :
    ∀ d, ∃ p, untokenizeAux stream d = some p := by
  induction stream with
  | nil => intro d; exact ⟨("", ""), rfl⟩
  | cons ft rest ih =>
    intro d
    obtain ⟨⟨ts, nd⟩, hr⟩ := render_token_isSome ft.token d
    obtain ⟨⟨es, fs⟩, ha⟩ := ih nd
    refine ⟨(ts ++ es,
      String.mk (List.replicate ts.length (if ft.underFocus then '^' else ' ')) ++ fs), ?_⟩
    simp [untokenizeAux, hr, ha]

lemma untokenizeAux_lengths (stream : List FocusToken) :
    ∀ d p, untokenizeAux stream d = some p → p.1.length = p.2.length := by
  induction stream with
  | nil =>
    intro d p h
    simp only [untokenizeAux, Option.some.injEq] at h
    subst h
    rfl
  | cons ft rest ih =>
    intro d p h
    simp only [untokenizeAux] at h
    split at h
    · simp at h
    · rename_i ts nd hr
      split at h
      · simp at h
      · rename_i es fs ha
        simp only [Option.some.injEq] at h
        subst h
        have hq := ih nd (es, fs) ha
        simp only at hq
        simp [String.length_append, String.length_mk, List.length_replicate, hq]

lemma charToken_none_of_lower (c : Char) (h : pyIsLower c = true) : charToken c = none := by
  unfold charToken
  split_ifs with h1 h2 h3 h4 h5
  · subst h1; exact absurd h (by decide)
  · subst h2; exact absurd h (by decide)
  · subst h3; exact absurd h (by decide)
  · subst h4; exact absurd h (by decide)
  · subst h5; exact absurd h (by decide)
  · rfl

/-!
Claim theorems.
-/

/-- C1, counterexample: on the input `"(["` both opening brackets remain unclosed after
the scan; the outermost (first-opened) unclosed opener is `'('`, but `tokenize` fails
citing `'['` -- the most recently opened one -- not the outermost. -/
theorem tokenize_unmatched_counterexample :
    tokenize "([" = .error ("unmatched bracket -- " ++ reprChar '[') ∧
    tokenize "([" ≠ .error ("unmatched bracket -- " ++ reprChar '(') := by
  constructor
  · rfl
  · intro hcontra
    rw [show tokenize "([" = .error ("unmatched bracket -- " ++ reprChar '[') from rfl]
      at hcontra
    exact absurd (Except.error.inj hcontra) (by decide)

/-- C1 (amended): for every input string in which, after scanning all characters, at
least one opening bracket remains unclosed, `tokenize` fails with a `ParseError` whose
message cites the innermost (most recently opened, still unclosed) opening bracket --
the top of the unclosed-bracket stack. -/
theorem tokenize_unmatched_innermost (s : String) (stream : List Token) (opening : Char)
    (rest : List Char) (h : scan s.data [] [] = .ok (stream, opening :: rest)) :
    tokenize s = .error ("unmatched bracket -- " ++ reprChar opening) := by
  unfold tokenize
  rw [h]

/-- Witness for C1's amended theorem at the input `"(["`, whose scan leaves the
unclosed-opener stack `['[', '(']` (top first). -/
theorem tokenize_unmatched_innermost_witness :
    tokenize "([" = .error ("unmatched bracket -- " ++ reprChar '[') :=
  tokenize_unmatched_innermost "([" [.tOpen, .tOpen] '[' ['('] rfl

/-- C2: for the zipper whose focus is `BinOp(And, BinOp(Or, a, b), Not(BinOp(And, a, b)))`
with an empty ancestor list, `unparse` followed by `untokenize` returns the expression
text `"([a | b] & [!{a & b}])"` and the all-marked focus indicator. -/
theorem unparse_untokenize_scenario :
    untokenize (unparse exampleZipper) =
      some ("([a | b] & [!{a & b}])", "^^^^^^^^^^^^^^^^^^^^^^") := by
  decide

/-- C3: whenever `distribute` succeeds, `factor` undoes it:
`factor (distribute e) = e`. -/
theorem distribute_then_factor (e e2 : Expr) (h : distribute e = .ok e2) :
    factor e2 = .ok e := by
  cases e with
  | F => simp [distribute] at h
  | T => simp [distribute] at h
  | var name => simp [distribute] at h
  | unary arg => simp [distribute] at h
  | binary a op0 r =>
    cases r with
    | F => simp [distribute] at h
    | T => simp [distribute] at h
    | var name => simp [distribute] at h
    | unary arg => simp [distribute] at h
    | binary b op1 c =>
      by_cases hd : duals op0 = op1
      · simp only [distribute, if_pos hd, Except.ok.injEq] at h
        subst h
        simp [factor, hd]
      · simp [distribute, if_neg hd] at h

/-- Witness for C3 at `(a | (b & c))`, where `distribute` succeeds. -/
theorem distribute_then_factor_witness :
    factor (.binary (.binary (.var "a") .or (.var "b")) .and
        (.binary (.var "a") .or (.var "c"))) =
      .ok (.binary (.var "a") .or (.binary (.var "b") .and (.var "c"))) :=
  distribute_then_factor
    (.binary (.var "a") .or (.binary (.var "b") .and (.var "c"))) _ rfl

/-- C4: each applicable downward move (`move_arg` on a `Not` focus, `move_left` and
`move_right` on a `BinOp` focus) is undone by `move_up`. -/
theorem move_then_move_up (z z2 : Zipper) :
    (z.moveArg = .ok z2 → z2.moveUp = .ok z) ∧
    (z.moveLeft = .ok z2 → z2.moveUp = .ok z) ∧
    (z.moveRight = .ok z2 → z2.moveUp = .ok z) := by
  obtain ⟨e, ps⟩ := z
  refine ⟨?_, ?_, ?_⟩ <;> intro h <;> cases e <;>
      simp only [Zipper.moveArg, Zipper.moveLeft, Zipper.moveRight,
        Except.ok.injEq, reduceCtorEq] at h <;>
    subst h <;>
    simp [Zipper.moveUp, Zipper.moveUpWithDirection, Except.map]

/-- Witness for C4: each of the three moves performed at a concrete zipper where it
applies, then undone by `move_up`. -/
theorem move_then_move_up_witness :
    (Zipper.mk (.var "a") [.unaryHole]).moveUp = .ok ⟨.unary (.var "a"), []⟩ ∧
    (Zipper.mk (.var "a") [.binaryHoleLeft .and (.var "b")]).moveUp =
      .ok ⟨.binary (.var "a") .and (.var "b"), []⟩ ∧
    (Zipper.mk (.var "b") [.binaryHoleRight (.var "a") .or]).moveUp =
      .ok ⟨.binary (.var "a") .or (.var "b"), []⟩ :=
  ⟨(move_then_move_up ⟨.unary (.var "a"), []⟩ ⟨.var "a", [.unaryHole]⟩).1 rfl,
   (move_then_move_up ⟨.binary (.var "a") .and (.var "b"), []⟩
      ⟨.var "a", [.binaryHoleLeft .and (.var "b")]⟩).2.1 rfl,
   (move_then_move_up ⟨.binary (.var "a") .or (.var "b"), []⟩
      ⟨.var "b", [.binaryHoleRight (.var "a") .or]⟩).2.2 rfl⟩

/-- C5: `to_top` is total (it returns a plain pair, never a `NavigationError`); on a
zipper with no ancestors it returns the focus and the empty path; and replaying the
returned outermost-first direction path from the top of the returned expression via
the matching moves reconstructs a zipper with the same focus and ancestors. -/
theorem to_top_replay (z : Zipper) :
    (z.parents = [] → z.toTop = (z.expr, [])) ∧
    replay ⟨z.toTop.1, []⟩ z.toTop.2 = .ok z := by
  constructor
  · intro h
    simp [Zipper.toTop, h, toTopAux]
  · obtain ⟨e, ps⟩ := z
    simp only [Zipper.toTop, toTopAux_eq, List.append_nil]
    exact replay_foldl ps e

/-- Witness for C5 at a zipper with one ancestor frame (and, for the first conjunct,
at a zipper with none). -/
theorem to_top_replay_witness :
    (Zipper.mk Expr.T []).toTop = (Expr.T, []) ∧
    replay ⟨(Zipper.mk (.var "a") [.unaryHole]).toTop.1, []⟩
        (Zipper.mk (.var "a") [.unaryHole]).toTop.2 =
      .ok ⟨.var "a", [.unaryHole]⟩ :=
  ⟨(to_top_replay ⟨Expr.T, []⟩).1 rfl,
   (to_top_replay ⟨.var "a", [.unaryHole]⟩).2⟩

/-- C6: `introduce_or_false` and `introduce_and_true` are total functions on
expressions (their types have no error channel, mirroring the Python bodies, which
contain no `raise`), and `apply_identity` undoes `introduce_or_false`. -/
theorem apply_identity_introduce_or_false (e : Expr) :
    apply_identity (introduce_or_false e) = .ok e :=
  rfl

/-- C7: the two strings returned by `untokenize` always have equal length -- each
token contributes a run of `^` or spaces exactly as long as its rendered text. -/
theorem untokenize_equal_lengths (stream : List FocusToken) (p : String × String)
    (h : untokenize stream = some p) : p.1.length = p.2.length :=
  untokenizeAux_lengths stream 0 p h

/-- Witness for C7 at the one-token stream `[FocusToken(T, underFocus := true)]`. -/
theorem untokenize_equal_lengths_witness :
    untokenize [⟨Token.tT, true⟩] = some ("T", "^") ∧
    ("T" : String).length = ("^" : String).length :=
  ⟨by decide, untokenize_equal_lengths [⟨Token.tT, true⟩] ("T", "^") (by decide)⟩

/-- C8: `tokenize` accepts as a variable any single character satisfying the
(Unicode-aware) lowercase-letter classification, not only ASCII `a`..`z`; in
particular non-ASCII lowercase letters such as `'α'` yield a `Variable` token. -/
theorem tokenize_lowercase_var (c : Char) (h : pyIsLower c = true) :
    tokenize (String.singleton c) = .ok [Token.tVar (String.singleton c)] := by
  have hc : charToken c = none := charToken_none_of_lower c h
  unfold tokenize
  rw [show (String.singleton c).data = [c] from rfl]
  simp [scan, hc, h]

/-- Witness for C8 at the Greek lowercase letter `'α'`. -/
theorem tokenize_lowercase_var_witness :
    pyIsLower 'α' = true ∧
    tokenize (String.singleton 'α') = .ok [Token.tVar (String.singleton 'α')] :=
  ⟨by decide, tokenize_lowercase_var 'α' (by decide)⟩

/-- C9: `untokenize` is total over arbitrary `FocusToken` streams -- including
unbalanced ones, where the bracket-depth counter goes negative -- because the
three-glyph bracket cycles are indexed modulo 3, so the (fallible, `IndexError`-style)
list indexing always succeeds and a pair of strings is always returned. -/
theorem untokenize_total (stream : List FocusToken) :
    ∃ p, untokenize stream = some p :=
  untokenizeAux_isSome stream 0

/-- C10: `parse` rejects brackets wrapped around a bare value: on
`[Open, True, Close]` (the token stream of `"(T)"`) the reduction at the closing
bracket finds a single expression element, which matches none of the accepted shapes,
so `parse` fails with the `ParseError` message `invalid syntax in boolean expression`. -/
theorem parse_bracketed_value_invalid :
    parse [.tOpen, .tT, .tClose] = .error "invalid syntax in boolean expression" :=
  rfl

end Algezip
